import Mathlib

/-!
Verification development for a string-similarity record-linkage engine.

The sources embedded here are, per module:
* `scripts/preprocessing.py` — text normalization (`__normalize_text`);
* `config/translations.py` — the replacement tables;
* `scripts/algorithms/levenshtein.py`, `jaccard.py`, `ngram.py`, `dice.py`,
  `regex.py` — the five similarity algorithms present in the sources
  (`prep_`, `__calculate_best_match`, `perform_matching`, `export_results`);
* `config/config.py` — the per-algorithm thresholds.

Modelling conventions:
* Python strings are `List Char` (wrapped in `String` at the interfaces).
  Python's Unicode-aware `\w`, `str.lower` and `re.IGNORECASE` are modelled
  restricted to the alphabet the repository's data uses: ASCII alphanumerics,
  underscore, and the German letters ä ö ü ß (with their uppercase forms).
* IEEE-754 float arithmetic is modelled as exact rational arithmetic; the
  special values produced by `numpy` division are modelled explicitly
  (`nan` for 0/0, `±FLOAT_MAX` after `np.nan_to_num` for `±inf`).
* Fallible library calls (`CountVectorizer.fit` on an empty vocabulary,
  per-task exceptions in the thread-pool fan-out) are `Except`.
* The thread pool's nondeterministic completion order is an explicit
  parameter (a permutation of the submitted indices).
-/

set_option maxRecDepth 8000

namespace StringSim

/-! ## Normalizer (`scripts/preprocessing.py`, `config/translations.py`) -/

/-- The lowercase mapping of `str.lower` on the modelled alphabet: ASCII
letters plus the uppercase German letters Ä Ö Ü ẞ. -/
def lowerTable : List (Char × Char) :=
  [('A', 'a'), ('B', 'b'), ('C', 'c'), ('D', 'd'), ('E', 'e'), ('F', 'f'),
   ('G', 'g'), ('H', 'h'), ('I', 'i'), ('J', 'j'), ('K', 'k'), ('L', 'l'),
   ('M', 'm'), ('N', 'n'), ('O', 'o'), ('P', 'p'), ('Q', 'q'), ('R', 'r'),
   ('S', 's'), ('T', 't'), ('U', 'u'), ('V', 'v'), ('W', 'w'), ('X', 'x'),
   ('Y', 'y'), ('Z', 'z'), ('Ä', 'ä'), ('Ö', 'ö'), ('Ü', 'ü'), ('ẞ', 'ß')]

/-- Model of `str.lower` restricted to the modelled alphabet: characters
outside the table are fixed. -/
def lowerChar (c : Char) : Char :=
  ((lowerTable.find? (fun p => p.1 == c)).map Prod.snd).getD c

/-- Model of `\s` (whitespace class, also used by `str.strip`). -/
def isSpaceChar (c : Char) : Bool := c.isWhitespace

/-- Model of `\w` (word-character class) on the modelled alphabet:
ASCII alphanumerics, underscore, and the German letters. -/
def isWordChar (c : Char) : Bool :=
  c.isAlphanum || c = '_' || c = 'ä' || c = 'ö' || c = 'ü' || c = 'ß'
  || c = 'Ä' || c = 'Ö' || c = 'Ü' || c = 'ẞ'

/-- `re.sub` with a literal pattern: replace all non-overlapping occurrences
of `pat` in `s` by `rep`, scanning left to right and never rescanning a
replacement.  The fuel argument (always instantiated with `s.length`) makes
the recursion structural. -/
def replaceAllFuel (pat rep : List Char) : Nat → List Char → List Char
  | 0, s => s
  | _ + 1, [] => []
  | fuel + 1, c :: rest =>
    if !pat.isEmpty && pat.isPrefixOf (c :: rest) then
      rep ++ replaceAllFuel pat rep fuel (rest.drop (pat.length - 1))
    else
      c :: replaceAllFuel pat rep fuel rest

/-- Replace all occurrences of the literal pattern `pat` by `rep` in `s`. -/
def replaceAll (pat rep s : List Char) : List Char :=
  replaceAllFuel pat rep s.length s

/-- `ABBREVIATION_TRANSLATION` from `config/translations.py`:
`{"straße": "str.", "Straße": "Str."}`. -/
def ABBREVIATION_TRANSLATION : List (List Char × List Char) :=
  [("straße".data, "str.".data), ("Straße".data, "Str.".data)]

/-- `MUTATION_TRANSLATION` from `config/translations.py`:
`{"ä": "ae", "ö": "oe", "ü": "ue", "ß": "ss"}`. -/
def MUTATION_TRANSLATION : List (List Char × List Char) :=
  [("ä".data, "ae".data), ("ö".data, "oe".data),
   ("ü".data, "ue".data), ("ß".data, "ss".data)]

/-- The merged replacement table
`ABBREVIATION_TRANSLATION | MUTATION_TRANSLATION`, in insertion order. -/
def replacements : List (List Char × List Char) :=
  ABBREVIATION_TRANSLATION ++ MUTATION_TRANSLATION

/-- `reduce(lambda s, kv: re.sub(kv[0], kv[1], s), replacements.items(), s1)`. -/
def applyReplacements (s : List Char) : List Char :=
  replacements.foldl (fun t kv => replaceAll kv.1 kv.2 t) s

/-- `str.strip`: drop leading and trailing whitespace. -/
def stripList (s : List Char) : List Char :=
  ((s.dropWhile isSpaceChar).reverse.dropWhile isSpaceChar).reverse

/-- `__normalize_text` from `scripts/preprocessing.py`:
apply the replacement table, lowercase, strip, then remove every character
that is neither a word character nor whitespace
(`re.sub(r"[^\w\s]", "", s2.lower().strip())`). -/
def normalizeList (s : List Char) : List Char :=
  (stripList ((applyReplacements s).map lowerChar)).filter
    (fun c => isWordChar c || isSpaceChar c)

/-- `__normalize_text` on `String`. -/
def normalizeText (s : String) : String := ⟨normalizeList s.data⟩

example : normalizeText "Dr. Müller-Straße 123" = "dr muellerstr 123" := by decide
example : normalizeText "Schlossstrasse" = "schlossstrasse" := by decide
example : normalizeText "Schlossstr." = "schlossstr" := by decide
example : normalizeText "Hauptstraße 1" = "hauptstr 1" := by decide
example : normalizeText "Hauptstrasse Eins" = "hauptstrasse eins" := by decide
example : normalizeText "Müllerweg" = "muellerweg" := by decide
example : normalizeText "" = "" := by decide
example : normalizeText "a ." = "a " := by decide

/-! ## Per-algorithm thresholds (`config/config.py`) -/

/-- The `THRESHOLDS` DotDict from `config/config.py`. -/
structure Thresholds where
  regex : ℚ
  levenshtein : ℚ
  jaccard : ℚ
  tfidf : ℚ
  ngram : ℚ
  dice : ℚ

/-- `THRESHOLDS` values from `config/config.py`. -/
def THRESHOLDS : Thresholds :=
  { regex := 1/2, levenshtein := 4/5, jaccard := 1/2,
    tfidf := 1/2, ngram := 1/2, dice := 1/2 }

/-! ## MatchResult rows and classification -/

/-- One result-table row, as built by every `__calculate_best_match`:
`{"MATCH": ..., "BEST_FOUND_MATCH": ..., "TRUE_MATCH": None, "BEST_MATCH": ...}`.
The score type is `ℚ` for the float-scored algorithms and `Bool` for regex. -/
structure MatchResult (σ : Type) where
  MATCH : String
  BEST_FOUND_MATCH : Option String
  TRUE_MATCH : Option String
  BEST_MATCH : Option σ
deriving DecidableEq, Repr

/-- `export_results`' thresholding `df["BEST_MATCH"] >= threshold` for a
float score column: a missing score is `NaN` in pandas, and `NaN >= t`
is `False`. -/
def classifyScoreQ (s : Option ℚ) (t : ℚ) : Bool :=
  match s with
  | none => false
  | some x => t ≤ x

/-- `export_results`' thresholding for the regex algorithm, whose score
column is boolean: Python evaluates `True >= 0.5` as `1 >= 0.5`. -/
def classifyScoreB (s : Option Bool) (t : ℚ) : Bool :=
  match s with
  | none => false
  | some b => t ≤ (if b then (1 : ℚ) else 0)

/-! ## Edit-distance algorithm (`scripts/algorithms/levenshtein.py`)

`rapidfuzz.distance.Levenshtein` with uniform costs is the textbook
Levenshtein distance, embedded here as Mathlib's `levenshtein` with
`Levenshtein.defaultCost`. -/

/-- `Levenshtein.distance` (uniform costs) from rapidfuzz. -/
def levDist (xs ys : List Char) : ℕ :=
  levenshtein Levenshtein.defaultCost xs ys

/-- `Levenshtein.normalized_similarity`:
`1 - distance / max(len(s1), len(s2))`, and `1` when both are empty. -/
def levNormSim (xs ys : List Char) : ℚ :=
  let m : ℕ := max xs.length ys.length
  if m = 0 then 1 else 1 - (levDist xs ys : ℚ) / (m : ℚ)

/-- Scanning loop of `rapidfuzz.process.extractOne`: walk the choices in
order keeping the strictly best score (ties keep the first occurrence),
carrying the index of the current choice. -/
def extractOneAux (q : List Char) : List (List Char) → ℕ → Option (ℚ × ℕ) → Option (ℚ × ℕ)
  | [], _, best => best
  | r :: rs, i, best =>
    let s := levNormSim q r
    match best with
    | none => extractOneAux q rs (i + 1) (some (s, i))
    | some (bs, bi) =>
      extractOneAux q rs (i + 1) (if s > bs then some (s, i) else some (bs, bi))

/-- `rapidfuzz.process.extractOne(q, choices, scorer=..., processor=None)`:
the best score over the choices together with its index (`None` on an
empty choice sequence). -/
def extractOne (q : List Char) (choices : List (List Char)) : Option (ℚ × ℕ) :=
  extractOneAux q choices 0 none

/-- `__calculate_best_match` from `scripts/algorithms/levenshtein.py` for one
query: empty stripped normalized text short-circuits to a no-match row,
otherwise the best reference under normalized Levenshtein similarity is
taken, with the original reference text looked up by index. -/
def levenshteinBestMatch (dataNorm : List (List Char)) (dataOrig : List String)
    (qOrig : String) (qNorm : List Char) : MatchResult ℚ :=
  if (stripList qNorm).isEmpty then
    { MATCH := qOrig, BEST_FOUND_MATCH := none, TRUE_MATCH := none, BEST_MATCH := none }
  else
    match extractOne (stripList qNorm) dataNorm with
    | some (score, i) =>
      { MATCH := qOrig, BEST_FOUND_MATCH := some (dataOrig.getD i ""),
        TRUE_MATCH := none, BEST_MATCH := some score }
    | none =>
      { MATCH := qOrig, BEST_FOUND_MATCH := none, TRUE_MATCH := none, BEST_MATCH := none }

/-- One query through preprocessing (`preprocess` both series) and the
levenshtein `prep_`/`__calculate_best_match` pipeline. -/
def levenshteinRunOne (corpus : List String) (q : String) : MatchResult ℚ :=
  levenshteinBestMatch (corpus.map fun s => normalizeList s.data) corpus
    q (normalizeList q.data)

theorem levNormSim_schloss :
    levNormSim "schlossstr".data "schlossstrasse".data = 5/7 := by
  have h : levDist "schlossstr".data "schlossstrasse".data = 4 := by decide
  have hm : max "schlossstr".data.length "schlossstrasse".data.length = 14 := by decide
  unfold levNormSim
  rw [hm, h]
  norm_num

theorem levNormSim_goethe :
    levNormSim "schlossstr".data "goethestrasse".data = 2/13 := by
  have h : levDist "schlossstr".data "goethestrasse".data = 11 := by decide
  have hm : max "schlossstr".data.length "goethestrasse".data.length = 13 := by decide
  unfold levNormSim
  rw [hm, h]
  norm_num

theorem extractOne_schloss :
    extractOne "schlossstr".data ["schlossstrasse".data, "goethestrasse".data]
      = some (5/7, 0) := by
  rw [show extractOne "schlossstr".data ["schlossstrasse".data, "goethestrasse".data]
      = (if levNormSim "schlossstr".data "goethestrasse".data >
            levNormSim "schlossstr".data "schlossstrasse".data
        then some (levNormSim "schlossstr".data "goethestrasse".data, 1)
        else some (levNormSim "schlossstr".data "schlossstrasse".data, 0)) from rfl]
  rw [levNormSim_schloss, levNormSim_goethe]
  norm_num

theorem levenshteinRunOne_schloss :
    levenshteinRunOne ["Schlossstrasse", "Goethestrasse"] "Schlossstr." =
      { MATCH := "Schlossstr.", BEST_FOUND_MATCH := some "Schlossstrasse",
        TRUE_MATCH := none, BEST_MATCH := some (5/7) } := by
  have hd : (["Schlossstrasse", "Goethestrasse"].map fun s : String => normalizeList s.data)
      = ["schlossstrasse".data, "goethestrasse".data] := by decide
  have hq : normalizeList "Schlossstr.".data = "schlossstr".data := by decide
  have hs : stripList "schlossstr".data = "schlossstr".data := by decide
  unfold levenshteinRunOne
  rw [hd, hq]
  unfold levenshteinBestMatch
  rw [hs, if_neg (by decide : ¬("schlossstr".data.isEmpty = true)), extractOne_schloss]
  rfl

/-! ## Vector-based algorithms: shared pieces

`sklearn.feature_extraction.text.CountVectorizer` with the default word
analyzer lowercases its input and extracts tokens matching
`(?u)\b\w\w+\b`, i.e. maximal word-character runs of length at least two;
with `analyzer="char", ngram_range=(2, 2)` it lowercases and takes all
character bigrams.  `fit` raises `ValueError("empty vocabulary ...")`
when no token at all is observed (modelled as `Except.error`). -/

/-- Maximal runs of word characters in a string (`acc` is the current run,
reversed). -/
def wordRunsAux : List Char → List Char → List (List Char)
  | [], acc => if acc.isEmpty then [] else [acc.reverse]
  | c :: rest, acc =>
    if isWordChar c then wordRunsAux rest (c :: acc)
    else if acc.isEmpty then wordRunsAux rest []
    else acc.reverse :: wordRunsAux rest []

/-- The default `CountVectorizer` word tokenizer: lowercase, then all
matches of `(?u)\b\w\w+\b` — word-character runs of length ≥ 2. -/
def tokenize (s : List Char) : List (List Char) :=
  (wordRunsAux (s.map lowerChar) []).filter (fun t => 2 ≤ t.length)

/-- All character bigrams of a string (`CountVectorizer(analyzer="char",
ngram_range=(2, 2))`), after the vectorizer's lowercasing. -/
def bigrams : List Char → List (List Char)
  | a :: b :: rest => [a, b] :: bigrams (b :: rest)
  | _ => []

/-- Character bigrams as the char `CountVectorizer` produces them. -/
def charBigrams (s : List Char) : List (List Char) :=
  bigrams (s.map lowerChar)

/-- The largest IEEE-754 double, `np.nan_to_num`'s substitute for `+inf`. -/
def FLOAT_MAX : ℚ := (2 ^ 53 - 1) * 2 ^ 971

/-- `np.nan_to_num(num / den)` under `np.errstate(divide="ignore",
invalid="ignore")`: `0/0` is `nan ↦ 0`, `x/0` is `±inf ↦ ±FLOAT_MAX`
(`np.nan_to_num`'s default `posinf`/`neginf` substitutes), and otherwise
plain division. -/
def nanToNum (num den : ℚ) : ℚ :=
  if den = 0 then (if num = 0 then 0 else if 0 < num then FLOAT_MAX else -FLOAT_MAX)
  else num / den

/-- First-occurrence arg-max scan over a list of scores (`np.argmax`
returns the first maximal index, `.max()` the corresponding value). -/
def argmaxFirstAux : List ℚ → ℕ → Option (ℚ × ℕ) → Option (ℚ × ℕ)
  | [], _, best => best
  | s :: rest, i, best =>
    match best with
    | none => argmaxFirstAux rest (i + 1) (some (s, i))
    | some (bs, bi) =>
      argmaxFirstAux rest (i + 1) (if s > bs then some (s, i) else some (bs, bi))

/-- `(sims.max(), sims.argmax())`, `none` on an empty array (numpy raises
there; the callers distinguish the cases). -/
def argmaxFirst (l : List ℚ) : Option (ℚ × ℕ) := argmaxFirstAux l 0 none

/-! ## Token-overlap algorithm (`scripts/algorithms/jaccard.py`) -/

/-- `CountVectorizer(binary=True).fit(docs)`: the set of distinct tokens.
sklearn additionally sorts the vocabulary; the column order is irrelevant
to every sum computed from it, so the model keeps first-occurrence order. -/
def fitVocabulary (docs : List (List Char)) : Except String (List (List Char)) :=
  if ((docs.map tokenize).flatten.dedup).isEmpty then
    Except.error "empty vocabulary; perhaps the documents only contain stop words"
  else
    Except.ok ((docs.map tokenize).flatten.dedup)

/-- `jaccard.prep_`: the vectorizer is fitted on the reference corpus
(`data_norm_series`) only. -/
def jaccardPrep (dataNorm : List (List Char)) : Except String (List (List Char)) :=
  fitVocabulary dataNorm

/-- Sum of a binary (presence) vector over the vocabulary:
`vectors.sum(axis=1)` for `CountVectorizer(binary=True)`. -/
def presenceCount (vocab : List (List Char)) (doc : List Char) : ℕ :=
  (vocab.filter fun v => (tokenize doc).contains v).length

/-- `data_vectors.multiply(match_vector).sum(axis=1)` for binary vectors:
the number of vocabulary tokens present in both documents. -/
def interCount (vocab : List (List Char)) (d q : List Char) : ℕ :=
  (vocab.filter fun v => (tokenize d).contains v && (tokenize q).contains v).length

/-- The per-reference Jaccard score of `jaccard.__calculate_best_match`:
`intersection / (data.sum + match.sum - intersection)` with
`np.nan_to_num`. -/
def jaccardSimilarity (vocab : List (List Char)) (d q : List Char) : ℚ :=
  nanToNum (interCount vocab d q : ℚ)
    ((presenceCount vocab d : ℚ) + (presenceCount vocab q : ℚ) - (interCount vocab d q : ℚ))

/-- `__calculate_best_match` from `scripts/algorithms/jaccard.py`: empty
stripped normalized text short-circuits to a no-match row; otherwise the
first arg-max of the Jaccard scores over the corpus (numpy `.max()` on an
empty corpus raises, surfaced as `Except.error`). -/
def jaccardBestMatch (vocab : List (List Char)) (dataNorm : List (List Char))
    (dataOrig : List String) (qOrig : String) (qNorm : List Char) :
    Except String (MatchResult ℚ) :=
  if (stripList qNorm).isEmpty then
    Except.ok { MATCH := qOrig, BEST_FOUND_MATCH := none, TRUE_MATCH := none, BEST_MATCH := none }
  else
    match argmaxFirst (dataNorm.map fun d => jaccardSimilarity vocab d (stripList qNorm)) with
    | some (ms, mi) =>
      Except.ok { MATCH := qOrig, BEST_FOUND_MATCH := some (dataOrig.getD mi ""),
                  TRUE_MATCH := none, BEST_MATCH := some ms }
    | none => Except.error "zero-size array to reduction operation maximum"

/-- One query through preprocessing, `jaccard.prep_` and
`jaccard.__calculate_best_match`. -/
def jaccardRunOne (corpus : List String) (q : String) : Except String (MatchResult ℚ) :=
  match jaccardPrep (corpus.map fun s => normalizeList s.data) with
  | Except.error e => Except.error e
  | Except.ok vocab =>
    jaccardBestMatch vocab (corpus.map fun s => normalizeList s.data) corpus
      q (normalizeList q.data)

/-! ## N-gram and Dice algorithms (`scripts/algorithms/ngram.py`, `dice.py`) -/

/-- One entry of a char-bigram count vector: `transform`'s count of
vocabulary bigram `v` in the document. -/
def ngramCount (doc : List Char) (v : List Char) : ℕ :=
  (charBigrams doc).count v

/-- `vector.sum()` for a bigram count vector. -/
def vecSum (vocab : List (List Char)) (doc : List Char) : ℕ :=
  (vocab.map fun v => ngramCount doc v).sum

/-- `data_vectors.multiply(match_vector).sum(axis=1)` for count vectors:
the *dot product* of the two count vectors (not a multiset
intersection). -/
def dotCount (vocab : List (List Char)) (d q : List Char) : ℕ :=
  (vocab.map fun v => ngramCount d v * ngramCount q v).sum

/-- `CountVectorizer(analyzer="char", ngram_range=(2, 2)).fit`: distinct
bigrams over the given documents, `ValueError` when there are none.
`ngram.prep_` and `dice.prep_` fit on `concat([data_norm, match_norm])`. -/
def fitCharVocabulary (docs : List (List Char)) : Except String (List (List Char)) :=
  if ((docs.map charBigrams).flatten.dedup).isEmpty then
    Except.error "empty vocabulary; perhaps the documents only contain stop words"
  else
    Except.ok ((docs.map charBigrams).flatten.dedup)

/-- `__ngram_similarity` from `scripts/algorithms/ngram.py` for one
reference: `intersection / (match_size + data_size - intersection)` with
`np.nan_to_num`, where `intersection` is the count-vector dot product. -/
def ngramSimilarity (vocab : List (List Char)) (d q : List Char) : ℚ :=
  nanToNum (dotCount vocab d q : ℚ)
    ((vecSum vocab q : ℚ) + (vecSum vocab d : ℚ) - (dotCount vocab d q : ℚ))

/-- `__dice_coefficient` from `scripts/algorithms/dice.py` for one
reference: `2·intersection / (match_size + data_size)` with
`np.nan_to_num`. -/
def diceCoefficient (vocab : List (List Char)) (d q : List Char) : ℚ :=
  nanToNum (2 * (dotCount vocab d q : ℚ))
    ((vecSum vocab q : ℚ) + (vecSum vocab d : ℚ))

/-- `__calculate_best_match` from `scripts/algorithms/ngram.py`: a query
whose bigram vector has no nonzero entry (`match_vector.nnz == 0`)
short-circuits to a no-match row; otherwise first arg-max over the
corpus. -/
def ngramBestMatch (vocab : List (List Char)) (dataNorm : List (List Char))
    (dataOrig : List String) (qOrig : String) (qNorm : List Char) :
    Except String (MatchResult ℚ) :=
  if vocab.all (fun v => ngramCount qNorm v == 0) then
    Except.ok { MATCH := qOrig, BEST_FOUND_MATCH := none, TRUE_MATCH := none, BEST_MATCH := none }
  else
    match argmaxFirst (dataNorm.map fun d => ngramSimilarity vocab d qNorm) with
    | some (ms, mi) =>
      Except.ok { MATCH := qOrig, BEST_FOUND_MATCH := some (dataOrig.getD mi ""),
                  TRUE_MATCH := none, BEST_MATCH := some ms }
    | none => Except.error "attempt to get argmax of an empty sequence"

/-- `__calculate_best_match` from `scripts/algorithms/dice.py`: same shape
as the n-gram one, scored by the Dice coefficient. -/
def diceBestMatch (vocab : List (List Char)) (dataNorm : List (List Char))
    (dataOrig : List String) (qOrig : String) (qNorm : List Char) :
    Except String (MatchResult ℚ) :=
  if vocab.all (fun v => ngramCount qNorm v == 0) then
    Except.ok { MATCH := qOrig, BEST_FOUND_MATCH := none, TRUE_MATCH := none, BEST_MATCH := none }
  else
    match argmaxFirst (dataNorm.map fun d => diceCoefficient vocab d qNorm) with
    | some (ms, mi) =>
      Except.ok { MATCH := qOrig, BEST_FOUND_MATCH := some (dataOrig.getD mi ""),
                  TRUE_MATCH := none, BEST_MATCH := some ms }
    | none => Except.error "attempt to get argmax of an empty sequence"

example : tokenize "hauptstr 1".data = ["hauptstr".data] := by decide
example : tokenize "hauptstrasse eins".data = ["hauptstrasse".data, "eins".data] := by decide
example : (jaccardPrep [normalizeList "Hauptstraße 1".data]).toOption = some ["hauptstr".data] := by decide
example : charBigrams "aaa".data = ["aa".data, "aa".data] := by decide
example : dotCount ["aa".data] "aaa".data "aaa".data = 4 := by decide

/-! ## Containment algorithm (`scripts/algorithms/regex.py`)

The forward direction compiles `re.compile(re.escape(s1_clean),
re.IGNORECASE)` and runs `s2_series.str.contains(pattern)`.  The regex
fragment reaching that call site after `re.escape` only ever contains
literal characters and backslash escapes, so the model's pattern language
has exactly literal tokens and the unescaped `.` wildcard; `re.IGNORECASE`
is modelled by comparing lowercased characters. -/

/-- A compiled pattern token: the wildcard `.` or a literal character. -/
inductive RTok : Type
  | any : RTok
  | lit : Char → RTok
deriving DecidableEq, Repr

/-- Whether one pattern token matches one character, case-insensitively. -/
def rtokMatches : RTok → Char → Bool
  | RTok.any, _ => true
  | RTok.lit c, d => lowerChar c == lowerChar d

/-- Whether the pattern matches a prefix of the string. -/
def patMatchesPrefix : List RTok → List Char → Bool
  | [], _ => true
  | _ :: _, [] => false
  | t :: ts, c :: cs => rtokMatches t c && patMatchesPrefix ts cs

/-- `re.search` semantics as used by `str.contains`: the pattern matches
at some position of the string. -/
def patSearch (p : List RTok) (s : List Char) : Bool :=
  s.tails.any (fun t => patMatchesPrefix p t)

/-- The characters `re.escape` prefixes with a backslash (its
`_special_chars_map`). -/
def reSpecialChars : List Char :=
  ['(', ')', '[', ']', '\x7b', '\x7d', '?', '*', '+', '-', '|', '^', '$',
   '\\', '.', '&', '~', '#', ' ', '\t', '\n', '\r', '\x0b', '\x0c']

/-- `re.escape`: backslash every special character. -/
def reEscape (s : List Char) : List Char :=
  s.flatMap fun c => if reSpecialChars.contains c then ['\\', c] else [c]

/-- `re.compile` on the modelled pattern fragment: a backslash escapes the
next character into a literal, a lone trailing backslash is a compile
error, an unescaped `.` is the wildcard, anything else is a literal. -/
def parsePattern : List Char → Option (List RTok)
  | [] => some []
  | c :: rest =>
    if c = '\\' then
      match rest with
      | [] => none
      | d :: rest2 => (parsePattern rest2).map (fun p => RTok.lit d :: p)
    else if c = '.' then (parsePattern rest).map (fun p => RTok.any :: p)
    else (parsePattern rest).map (fun p => RTok.lit c :: p)

/-- `__regex_matching` from `scripts/algorithms/regex.py` applied to one
reference string: compile the escaped query case-insensitively and test
containment.  (A compile failure cannot happen on an escaped pattern;
the model returns no match there.) -/
def regexMatching (s1Clean : List Char) (s2 : List Char) : Bool :=
  match parsePattern (reEscape s1Clean) with
  | some p => patSearch p s2
  | none => false

/-- `__reverse_regex_matching` from `scripts/algorithms/regex.py` applied
to one reference: `np.char.find(s1_lower, data_norm_array_lower) >= 0`,
i.e. the lowercased reference occurs inside the lowercased query. -/
def reverseRegexMatching (s1Clean : List Char) (d : List Char) : Bool :=
  decide ((d.map lowerChar) <:+: (s1Clean.map lowerChar))

/-- `__calculate_best_match` from `scripts/algorithms/regex.py`: the mask
is `s1_in_s2 | s2_in_s1`; the first masked reference (if any) is the best
match with boolean score `True`, otherwise no match with score `False`.
There is no empty-query guard in this algorithm. -/
def regexBestMatch (dataNorm : List (List Char)) (dataOrig : List String)
    (qOrig : String) (qNorm : List Char) : MatchResult Bool :=
  match (dataNorm.zip dataOrig).find?
      (fun p => regexMatching qNorm p.1 || reverseRegexMatching qNorm p.1) with
  | some p =>
    { MATCH := qOrig, BEST_FOUND_MATCH := some p.2, TRUE_MATCH := none,
      BEST_MATCH := some true }
  | none =>
    { MATCH := qOrig, BEST_FOUND_MATCH := none, TRUE_MATCH := none,
      BEST_MATCH := some false }

/-- One query through preprocessing, `regex.prep_` and
`regex.__calculate_best_match`. -/
def regexRunOne (corpus : List String) (q : String) : MatchResult Bool :=
  regexBestMatch (corpus.map fun s => normalizeList s.data) corpus
    q (normalizeList q.data)

/-! ## Thread-pool orchestration (`perform_matching` in every algorithm
module, `main.py`)

`perform_matching` submits one task per query index and appends each
`future.result()` in `as_completed` order, swallowing (printing) per-task
exceptions.  The nondeterministic completion order is the explicit
`completionOrder` argument; a faithful scheduler always passes a
permutation of the prepared `indices`.  `main.py` then builds
`pd.DataFrame(results)` from the returned list as-is. -/

def performMatching {R : Type} (task : ℕ → Except String R)
    (completionOrder : List ℕ) : List R :=
  completionOrder.foldl
    (fun acc i =>
      match task i with
      | Except.ok r => acc ++ [r]
      | Except.error _ => acc)
    []

/-- `ngram.prep_` fits the char vectorizer on
`pd.concat([data_norm_series, match_norm_series])`; one query through the
prep and `__calculate_best_match`. -/
def ngramRunOne (corpus : List String) (q : String) : Except String (MatchResult ℚ) :=
  match fitCharVocabulary ((corpus.map fun s => normalizeList s.data)
      ++ [normalizeList q.data]) with
  | Except.error e => Except.error e
  | Except.ok vocab =>
    ngramBestMatch vocab (corpus.map fun s => normalizeList s.data) corpus
      q (normalizeList q.data)

/-- Same pipeline for `dice.py`. -/
def diceRunOne (corpus : List String) (q : String) : Except String (MatchResult ℚ) :=
  match fitCharVocabulary ((corpus.map fun s => normalizeList s.data)
      ++ [normalizeList q.data]) with
  | Except.error e => Except.error e
  | Except.ok vocab =>
    diceBestMatch vocab (corpus.map fun s => normalizeList s.data) corpus
      q (normalizeList q.data)

/-! ### Concrete evaluations of the vector algorithms -/

theorem jaccardBestMatch_singleton (vocab : List (List Char)) (d : List Char)
    (orig : String) (qOrig : String) (qNorm : List Char)
    (h : (stripList qNorm).isEmpty = false) :
    jaccardBestMatch vocab [d] [orig] qOrig qNorm =
      Except.ok { MATCH := qOrig, BEST_FOUND_MATCH := some orig, TRUE_MATCH := none,
                  BEST_MATCH := some (jaccardSimilarity vocab d (stripList qNorm)) } := by
  unfold jaccardBestMatch
  rw [if_neg (by simp [h])]
  rfl

theorem ngramBestMatch_singleton (vocab : List (List Char)) (d : List Char)
    (orig : String) (qOrig : String) (qNorm : List Char)
    (h : vocab.all (fun v => ngramCount qNorm v == 0) = false) :
    ngramBestMatch vocab [d] [orig] qOrig qNorm =
      Except.ok { MATCH := qOrig, BEST_FOUND_MATCH := some orig, TRUE_MATCH := none,
                  BEST_MATCH := some (ngramSimilarity vocab d qNorm) } := by
  unfold ngramBestMatch
  rw [if_neg (by simp [h])]
  rfl

theorem diceBestMatch_singleton (vocab : List (List Char)) (d : List Char)
    (orig : String) (qOrig : String) (qNorm : List Char)
    (h : vocab.all (fun v => ngramCount qNorm v == 0) = false) :
    diceBestMatch vocab [d] [orig] qOrig qNorm =
      Except.ok { MATCH := qOrig, BEST_FOUND_MATCH := some orig, TRUE_MATCH := none,
                  BEST_MATCH := some (diceCoefficient vocab d qNorm) } := by
  unfold diceBestMatch
  rw [if_neg (by simp [h])]
  rfl

theorem jaccardSimilarity_haupt :
    jaccardSimilarity ["hauptstr".data] (normalizeList "Hauptstraße 1".data)
      (stripList (normalizeList "Hauptstrasse Eins".data)) = 0 := by
  have h1 : interCount ["hauptstr".data] (normalizeList "Hauptstraße 1".data)
      (stripList (normalizeList "Hauptstrasse Eins".data)) = 0 := by decide
  have h2 : presenceCount ["hauptstr".data] (normalizeList "Hauptstraße 1".data) = 1 := by
    decide
  have h3 : presenceCount ["hauptstr".data]
      (stripList (normalizeList "Hauptstrasse Eins".data)) = 0 := by decide
  unfold jaccardSimilarity
  rw [h1, h2, h3]
  unfold nanToNum
  norm_num

theorem jaccardRunOne_haupt :
    jaccardRunOne ["Hauptstraße 1"] "Hauptstrasse Eins" =
      Except.ok { MATCH := "Hauptstrasse Eins", BEST_FOUND_MATCH := some "Hauptstraße 1",
                  TRUE_MATCH := none, BEST_MATCH := some 0 } := by
  have hb : jaccardRunOne ["Hauptstraße 1"] "Hauptstrasse Eins" =
      jaccardBestMatch ["hauptstr".data] [normalizeList "Hauptstraße 1".data]
        ["Hauptstraße 1"] "Hauptstrasse Eins" (normalizeList "Hauptstrasse Eins".data) := rfl
  rw [hb, jaccardBestMatch_singleton _ _ _ _ _ (by decide), jaccardSimilarity_haupt]

theorem diceCoefficient_aaa :
    diceCoefficient ["aa".data] "aaa".data "aaa".data = 2 := by
  have h1 : dotCount ["aa".data] "aaa".data "aaa".data = 4 := by decide
  have h2 : vecSum ["aa".data] "aaa".data = 2 := by decide
  unfold diceCoefficient
  rw [h1, h2]
  unfold nanToNum
  norm_num

theorem ngramSimilarity_aaa :
    ngramSimilarity ["aa".data] "aaa".data "aaa".data = FLOAT_MAX := by
  have h1 : dotCount ["aa".data] "aaa".data "aaa".data = 4 := by decide
  have h2 : vecSum ["aa".data] "aaa".data = 2 := by decide
  unfold ngramSimilarity
  rw [h1, h2]
  unfold nanToNum
  norm_num

theorem diceRunOne_aaa :
    diceRunOne ["aaa"] "aaa" =
      Except.ok { MATCH := "aaa", BEST_FOUND_MATCH := some "aaa",
                  TRUE_MATCH := none, BEST_MATCH := some 2 } := by
  have hb : diceRunOne ["aaa"] "aaa" =
      diceBestMatch ["aa".data] [normalizeList "aaa".data] ["aaa"] "aaa"
        (normalizeList "aaa".data) := rfl
  have hn : normalizeList "aaa".data = "aaa".data := by decide
  rw [hb, hn, diceBestMatch_singleton _ _ _ _ _ (by decide), diceCoefficient_aaa]

theorem ngramRunOne_aaa :
    ngramRunOne ["aaa"] "aaa" =
      Except.ok { MATCH := "aaa", BEST_FOUND_MATCH := some "aaa",
                  TRUE_MATCH := none, BEST_MATCH := some FLOAT_MAX } := by
  have hb : ngramRunOne ["aaa"] "aaa" =
      ngramBestMatch ["aa".data] [normalizeList "aaa".data] ["aaa"] "aaa"
        (normalizeList "aaa".data) := rfl
  have hn : normalizeList "aaa".data = "aaa".data := by decide
  rw [hb, hn, ngramBestMatch_singleton _ _ _ _ _ (by decide), ngramSimilarity_aaa]

/-! ### Orchestration machinery -/

/-- Whether a task succeeded. -/
def exceptOk {R : Type} (e : Except String R) : Bool :=
  match e with
  | Except.ok _ => true
  | Except.error _ => false

theorem performMatching_foldl {R : Type} (task : ℕ → Except String R) :
    ∀ (order : List ℕ) (acc : List R),
      order.foldl
        (fun acc i =>
          match task i with
          | Except.ok r => acc ++ [r]
          | Except.error _ => acc) acc
        = acc ++ order.filterMap (fun i => (task i).toOption) := by
  intro order
  induction order with
  | nil =>
    intro acc
    simp
  | cons i rest ih =>
    intro acc
    rw [List.foldl_cons, List.filterMap_cons]
    cases h : task i with
    | ok r => simp [h, ih, Except.toOption]
    | error e => simp [h, ih, Except.toOption]

/-- The collected results are exactly the successful tasks, in completion
order: no reordering by query index happens anywhere. -/
theorem performMatching_eq_filterMap {R : Type} (task : ℕ → Except String R)
    (order : List ℕ) :
    performMatching task order = order.filterMap (fun i => (task i).toOption) := by
  unfold performMatching
  rw [performMatching_foldl]
  simp

theorem length_filterMap_toOption {R : Type} (task : ℕ → Except String R) :
    ∀ l : List ℕ,
      (l.filterMap (fun i => (task i).toOption)).length
        = (l.filter (fun i => exceptOk (task i))).length := by
  intro l
  induction l with
  | nil => rfl
  | cons i rest ih =>
    cases h : task i with
    | ok r =>
      have h1 : (i :: rest).filterMap (fun i => (task i).toOption)
          = r :: rest.filterMap (fun i => (task i).toOption) := by
        rw [List.filterMap_cons, h]
        rfl
      have h2 : (i :: rest).filter (fun i => exceptOk (task i))
          = i :: rest.filter (fun i => exceptOk (task i)) := by
        rw [List.filter_cons, h, if_pos (show exceptOk (Except.ok r) = true from rfl)]
      rw [h1, h2, List.length_cons, List.length_cons, ih]
    | error e =>
      have h1 : (i :: rest).filterMap (fun i => (task i).toOption)
          = rest.filterMap (fun i => (task i).toOption) := by
        rw [List.filterMap_cons, h]
        rfl
      have h2 : (i :: rest).filter (fun i => exceptOk (task i))
          = rest.filter (fun i => exceptOk (task i)) := by
        rw [List.filter_cons, h, if_neg (by simp [exceptOk])]
      rw [h1, h2, ih]

theorem length_filter_partition (p : ℕ → Bool) :
    ∀ l : List ℕ, (l.filter p).length + (l.filter (fun i => !(p i))).length = l.length := by
  intro l
  induction l with
  | nil => rfl
  | cons i rest ih =>
    rw [List.filter_cons, List.filter_cons]
    cases h : p i <;> simp [h] <;> omega

/-! ### Normalizer idempotence machinery -/

/-- Each character `lowerChar` can output: either the input unchanged or
the second component of a table entry. -/
theorem lowerChar_cases (c : Char) :
    lowerChar c = c ∨ ∃ p ∈ lowerTable, lowerChar c = p.2 := by
  unfold lowerChar
  cases hf : lowerTable.find? (fun p => p.1 == c) with
  | none => exact Or.inl rfl
  | some p => exact Or.inr ⟨p, List.mem_of_find?_eq_some hf, rfl⟩

theorem lowerChar_fixed_of_mem (p : Char × Char) (h : p ∈ lowerTable) :
    lowerChar p.2 = p.2 := by
  fin_cases h <;> rfl

theorem lowerChar_idem (c : Char) : lowerChar (lowerChar c) = lowerChar c := by
  rcases lowerChar_cases c with h | ⟨p, hp, h⟩
  · rw [h]
    exact h
  · rw [h]
    exact lowerChar_fixed_of_mem p hp

theorem mem_stripList {c : Char} {s : List Char} (h : c ∈ stripList s) : c ∈ s := by
  unfold stripList at h
  rw [List.mem_reverse] at h
  have h2 := (List.dropWhile_sublist _).subset h
  rw [List.mem_reverse] at h2
  exact (List.dropWhile_sublist _).subset h2

/-- `re.sub` with a literal pattern that does not occur in the string is
the identity. -/
theorem replaceAllFuel_no_occurrence (pat rep : List Char) :
    ∀ s : List Char, ¬ pat <:+: s → replaceAllFuel pat rep s.length s = s := by
  intro s
  induction s with
  | nil => intro _; rfl
  | cons c rest ih =>
    intro h
    have hni : ¬ pat <:+: rest := fun hi => h (hi.trans (List.infix_cons List.infix_rfl))
    have hp : (!pat.isEmpty && pat.isPrefixOf (c :: rest)) = false := by
      cases hpe : pat.isEmpty with
      | true =>
        exact absurd (List.isEmpty_iff.mp hpe ▸ (List.nil_prefix).isInfix) h
      | false =>
        cases hpp : pat.isPrefixOf (c :: rest) with
        | true => exact absurd (List.isPrefixOf_iff_prefix.mp hpp).isInfix h
        | false => simp [hpe, hpp]
    show replaceAllFuel pat rep (rest.length + 1) (c :: rest) = c :: rest
    rw [replaceAllFuel, hp]
    simp only [Bool.false_eq_true, if_false]
    exact congrArg (c :: ·) (ih hni)

theorem replaceAll_no_occurrence (pat rep s : List Char) (h : ¬ pat <:+: s) :
    replaceAll pat rep s = s :=
  replaceAllFuel_no_occurrence pat rep s h

/-- Every replacement pattern contains one of ä ö ü ß, so a string free of
those four characters passes the whole replacement table unchanged. -/
theorem applyReplacements_eq_self (s : List Char)
    (hca : 'ä' ∉ s) (hco : 'ö' ∉ s) (hcu : 'ü' ∉ s) (hcb : 'ß' ∉ s) :
    applyReplacements s = s := by
  have h1 : ¬ ("straße".data <:+: s) := fun hi => hcb (hi.subset (by decide))
  have h2 : ¬ ("Straße".data <:+: s) := fun hi => hcb (hi.subset (by decide))
  have h3 : ¬ ("ä".data <:+: s) := fun hi => hca (hi.subset (by decide))
  have h4 : ¬ ("ö".data <:+: s) := fun hi => hco (hi.subset (by decide))
  have h5 : ¬ ("ü".data <:+: s) := fun hi => hcu (hi.subset (by decide))
  have h6 : ¬ ("ß".data <:+: s) := fun hi => hcb (hi.subset (by decide))
  show List.foldl (fun t kv => replaceAll kv.1 kv.2 t) s replacements = s
  rw [show replacements =
      [("straße".data, "str.".data), ("Straße".data, "Str.".data),
       ("ä".data, "ae".data), ("ö".data, "oe".data),
       ("ü".data, "ue".data), ("ß".data, "ss".data)] from rfl]
  simp only [List.foldl_cons, List.foldl_nil]
  rw [replaceAll_no_occurrence _ _ _ h1, replaceAll_no_occurrence _ _ _ h2,
      replaceAll_no_occurrence _ _ _ h3, replaceAll_no_occurrence _ _ _ h4,
      replaceAll_no_occurrence _ _ _ h5, replaceAll_no_occurrence _ _ _ h6]

/-- Conditional idempotence of the normalizer: if the normalized form has
no leading/trailing whitespace and none of ä ö ü ß, normalizing again is
the identity. -/
theorem normalizeList_idem_cond (x : List Char)
    (h1 : stripList (normalizeList x) = normalizeList x)
    (hca : 'ä' ∉ normalizeList x) (hco : 'ö' ∉ normalizeList x)
    (hcu : 'ü' ∉ normalizeList x) (hcb : 'ß' ∉ normalizeList x) :
    normalizeList (normalizeList x) = normalizeList x := by
  have hlower : ∀ c ∈ normalizeList x, lowerChar c = c := by
    intro c hc
    have hc2 : c ∈ stripList ((applyReplacements x).map lowerChar) :=
      (List.mem_filter.mp hc).1
    have hc3 : c ∈ (applyReplacements x).map lowerChar := mem_stripList hc2
    obtain ⟨d, _, hd⟩ := List.mem_map.mp hc3
    rw [← hd]
    exact lowerChar_idem d
  have hmap : (normalizeList x).map lowerChar = normalizeList x := by
    rw [List.map_congr_left hlower, List.map_id']
  have hfilter : (normalizeList x).filter (fun c => isWordChar c || isSpaceChar c)
      = normalizeList x :=
    List.filter_eq_self.mpr (fun a ha => (List.mem_filter.mp ha).2)
  calc normalizeList (normalizeList x)
      = (stripList ((applyReplacements (normalizeList x)).map lowerChar)).filter
          (fun c => isWordChar c || isSpaceChar c) := rfl
    _ = (stripList ((normalizeList x).map lowerChar)).filter
          (fun c => isWordChar c || isSpaceChar c) := by
          rw [applyReplacements_eq_self _ hca hco hcu hcb]
    _ = (stripList (normalizeList x)).filter
          (fun c => isWordChar c || isSpaceChar c) := by rw [hmap]
    _ = (normalizeList x).filter (fun c => isWordChar c || isSpaceChar c) := by rw [h1]
    _ = normalizeList x := hfilter

/-! ### Regex-escape machinery -/

/-- Escaping makes every character a literal token and always compiles. -/
theorem parse_reEscape (q : List Char) :
    parsePattern (reEscape q) = some (q.map RTok.lit) := by
  induction q with
  | nil => rfl
  | cons c q ih =>
    show parsePattern ((if reSpecialChars.contains c then ['\\', c] else [c]) ++ reEscape q)
        = some (RTok.lit c :: q.map RTok.lit)
    by_cases hc : reSpecialChars.contains c
    · rw [if_pos hc]
      show parsePattern ('\\' :: c :: reEscape q) = _
      rw [parsePattern.eq_def]
      simp [ih]
    · rw [if_neg hc]
      have hc1 : ¬ (c = '\\') := by
        intro he
        subst he
        exact hc (by decide)
      have hc2 : ¬ (c = '.') := by
        intro he
        subst he
        exact hc (by decide)
      show parsePattern (c :: reEscape q) = _
      rw [parsePattern.eq_def]
      simp [hc1, hc2, ih]

/-- A pattern of literal tokens matches a prefix exactly when the
lowercased pattern characters are a prefix of the lowercased string. -/
theorem patMatchesPrefix_lit (q : List Char) :
    ∀ s : List Char,
      patMatchesPrefix (q.map RTok.lit) s = true
        ↔ (q.map lowerChar) <+: (s.map lowerChar) := by
  induction q with
  | nil =>
    intro s
    simp [patMatchesPrefix, List.nil_prefix]
  | cons c q ih =>
    intro s
    cases s with
    | nil =>
      show patMatchesPrefix (RTok.lit c :: q.map RTok.lit) [] = true ↔ _
      simp [patMatchesPrefix]
    | cons d s2 =>
      show (rtokMatches (RTok.lit c) d && patMatchesPrefix (q.map RTok.lit) s2) = true ↔ _
      rw [Bool.and_eq_true]
      simp [rtokMatches, ih s2, beq_iff_eq, List.cons_prefix_cons]

/-- Searching a literal pattern is the case-insensitive substring test. -/
theorem patSearch_lit (q s : List Char) :
    patSearch (q.map RTok.lit) s = true ↔ (q.map lowerChar) <:+: (s.map lowerChar) := by
  unfold patSearch
  rw [List.any_eq_true]
  constructor
  · rintro ⟨t, ht, hm⟩
    have hsuf : t <:+ s := (List.mem_tails _ _).mp ht
    exact List.infix_iff_prefix_suffix.mpr
      ⟨t.map lowerChar, (patMatchesPrefix_lit q t).mp hm, hsuf.map lowerChar⟩
  · intro hinf
    obtain ⟨u, hpre, hsuf⟩ := List.infix_iff_prefix_suffix.mp hinf
    have hu : u ∈ (s.map lowerChar).tails := (List.mem_tails _ _).mpr hsuf
    rw [List.map_tails] at hu
    obtain ⟨t, ht1, ht2⟩ := List.mem_map.mp hu
    refine ⟨t, ht1, (patMatchesPrefix_lit q t).mpr ?_⟩
    rw [ht2]
    exact hpre

/-! ### Score-bound machinery -/

theorem levDist_nil_left (ys : List Char) : levDist [] ys = ys.length := by
  induction ys with
  | nil => simp [levDist]
  | cons y ys ih =>
    unfold levDist at ih ⊢
    rw [levenshtein_nil_cons, ih]
    simp [Levenshtein.defaultCost]
    omega

theorem levDist_nil_right (xs : List Char) : levDist xs [] = xs.length := by
  induction xs with
  | nil => simp [levDist]
  | cons x xs ih =>
    unfold levDist at ih ⊢
    rw [levenshtein_cons_nil, ih]
    simp [Levenshtein.defaultCost]
    omega

/-- The Levenshtein distance is at most the longer length (replace the
shorter string position-wise, then insert the overhang). -/
theorem levDist_le_max (xs : List Char) :
    ∀ ys : List Char, levDist xs ys ≤ max xs.length ys.length := by
  induction xs with
  | nil =>
    intro ys
    rw [levDist_nil_left]
    exact le_max_right _ _
  | cons x xs ih =>
    intro ys
    cases ys with
    | nil =>
      rw [levDist_nil_right]
      exact le_max_left _ _
    | cons y ys =>
      have hcc : levDist (x :: xs) (y :: ys)
          ≤ (if x = y then 0 else 1) + levDist xs ys := by
        unfold levDist
        rw [levenshtein_cons_cons]
        refine le_trans (min_le_right _ _) (le_trans (min_le_right _ _) ?_)
        simp [Levenshtein.defaultCost]
      have hsub : (if x = y then 0 else 1) ≤ 1 := by split <;> omega
      have hih := ih ys
      have hmax : max (x :: xs).length (y :: ys).length = max xs.length ys.length + 1 := by
        simp only [List.length_cons]
        exact Nat.succ_max_succ _ _
      omega

/-- The normalized Levenshtein similarity is a number in [0, 1]. -/
theorem levNormSim_bounds (xs ys : List Char) :
    0 ≤ levNormSim xs ys ∧ levNormSim xs ys ≤ 1 := by
  unfold levNormSim
  by_cases h : max xs.length ys.length = 0
  · rw [if_pos h]
    norm_num
  · rw [if_neg h]
    have hm : (0 : ℚ) < (max xs.length ys.length : ℕ) := by
      exact_mod_cast Nat.pos_of_ne_zero h
    have hd : ((levDist xs ys : ℕ) : ℚ) ≤ ((max xs.length ys.length : ℕ) : ℚ) := by
      exact_mod_cast levDist_le_max xs ys
    have h0 : (0 : ℚ) ≤ ((levDist xs ys : ℕ) : ℚ) := by positivity
    constructor
    · have := (div_le_one hm).mpr hd
      linarith
    · have : (0 : ℚ) ≤ ((levDist xs ys : ℕ) : ℚ) / ((max xs.length ys.length : ℕ) : ℚ) :=
        div_nonneg h0 (le_of_lt hm)
      linarith

theorem interCount_le_left (vocab : List (List Char)) (d q : List Char) :
    interCount vocab d q ≤ presenceCount vocab d := by
  unfold interCount presenceCount
  rw [← List.countP_eq_length_filter, ← List.countP_eq_length_filter]
  exact List.countP_mono_left (fun v _ h => by
    simp only [Bool.and_eq_true] at h
    exact h.1)

theorem interCount_le_right (vocab : List (List Char)) (d q : List Char) :
    interCount vocab d q ≤ presenceCount vocab q := by
  unfold interCount presenceCount
  rw [← List.countP_eq_length_filter, ← List.countP_eq_length_filter]
  exact List.countP_mono_left (fun v _ h => by
    simp only [Bool.and_eq_true] at h
    exact h.2)

/-- The Jaccard score is in [0, 1], and an empty union (both presence
sums zero) yields score 0. -/
theorem jaccardSimilarity_bounds (vocab : List (List Char)) (d q : List Char) :
    0 ≤ jaccardSimilarity vocab d q ∧ jaccardSimilarity vocab d q ≤ 1 ∧
      (presenceCount vocab d + presenceCount vocab q = 0 →
        jaccardSimilarity vocab d q = 0) := by
  have ha := interCount_le_left vocab d q
  have hb := interCount_le_right vocab d q
  unfold jaccardSimilarity nanToNum
  by_cases hden : ((presenceCount vocab d : ℚ) + (presenceCount vocab q : ℚ)
      - (interCount vocab d q : ℚ) = 0)
  · have hnat : presenceCount vocab d + presenceCount vocab q = interCount vocab d q := by
      exact_mod_cast (by linarith :
        ((presenceCount vocab d : ℚ) + (presenceCount vocab q : ℚ)
          = (interCount vocab d q : ℚ)))
    have hi0 : interCount vocab d q = 0 := by omega
    rw [if_pos hden, if_pos (by exact_mod_cast hi0)]
    norm_num
  · rw [if_neg hden]
    have hd0 : (0 : ℚ) ≤ (presenceCount vocab d : ℚ) + (presenceCount vocab q : ℚ)
        - (interCount vocab d q : ℚ) := by
      have : ((interCount vocab d q : ℕ) : ℚ) ≤ ((presenceCount vocab q : ℕ) : ℚ) := by
        exact_mod_cast hb
      have h2 : (0 : ℚ) ≤ (presenceCount vocab d : ℚ) := by positivity
      linarith
    have hdpos : (0 : ℚ) < (presenceCount vocab d : ℚ) + (presenceCount vocab q : ℚ)
        - (interCount vocab d q : ℚ) := lt_of_le_of_ne hd0 (Ne.symm hden)
    have hnum : ((interCount vocab d q : ℕ) : ℚ)
        ≤ (presenceCount vocab d : ℚ) + (presenceCount vocab q : ℚ)
          - (interCount vocab d q : ℚ) := by
      have h1 : ((interCount vocab d q : ℕ) : ℚ) ≤ ((presenceCount vocab d : ℕ) : ℚ) := by
        exact_mod_cast ha
      have h2 : ((interCount vocab d q : ℕ) : ℚ) ≤ ((presenceCount vocab q : ℕ) : ℚ) := by
        exact_mod_cast hb
      linarith
    refine ⟨div_nonneg (by positivity) (le_of_lt hdpos), ?_, ?_⟩
    · exact (div_le_one hdpos).mpr hnum
    · intro hsum
      have : presenceCount vocab d = 0 ∧ presenceCount vocab q = 0 := by omega
      have hi0 : interCount vocab d q = 0 := by omega
      exact absurd (by rw [this.1, this.2, hi0]; norm_num :
        ((presenceCount vocab d : ℚ) + (presenceCount vocab q : ℚ)
          - (interCount vocab d q : ℚ) = 0)) hden

theorem count_le_one_of_nodup (l : List (List Char)) (h : l.Nodup) (v : List Char) :
    l.count v ≤ 1 := by
  induction l with
  | nil => simp
  | cons a l ih =>
    rcases List.nodup_cons.mp h with ⟨hna, hnd⟩
    by_cases hv : a = v
    · subst hv
      have h0 : l.count a = 0 := List.count_eq_zero.mpr hna
      simp [List.count_cons, h0]
    · have := ih hnd
      simp only [List.count_cons, beq_iff_eq]
      rw [if_neg hv]
      omega

theorem dotCount_le_left (vocab : List (List Char)) (d q : List Char)
    (hq : (charBigrams q).Nodup) : dotCount vocab d q ≤ vecSum vocab d := by
  unfold dotCount vecSum
  refine List.sum_le_sum (fun v _ => ?_)
  have : ngramCount q v ≤ 1 := count_le_one_of_nodup _ hq v
  calc ngramCount d v * ngramCount q v ≤ ngramCount d v * 1 :=
        Nat.mul_le_mul_left _ this
    _ = ngramCount d v := Nat.mul_one _

theorem dotCount_le_right (vocab : List (List Char)) (d q : List Char)
    (hd : (charBigrams d).Nodup) : dotCount vocab d q ≤ vecSum vocab q := by
  unfold dotCount vecSum
  refine List.sum_le_sum (fun v _ => ?_)
  have : ngramCount d v ≤ 1 := count_le_one_of_nodup _ hd v
  calc ngramCount d v * ngramCount q v ≤ 1 * ngramCount q v :=
        Nat.mul_le_mul_right _ this
    _ = ngramCount q v := Nat.one_mul _

/-- For duplicate-free bigram lists the Dice coefficient is in [0, 1] and a
zero denominator yields 0. -/
theorem diceCoefficient_bounds (vocab : List (List Char)) (d q : List Char)
    (hd : (charBigrams d).Nodup) (hq : (charBigrams q).Nodup) :
    0 ≤ diceCoefficient vocab d q ∧ diceCoefficient vocab d q ≤ 1 ∧
      (vecSum vocab q + vecSum vocab d = 0 → diceCoefficient vocab d q = 0) := by
  have ha := dotCount_le_left vocab d q hq
  have hb := dotCount_le_right vocab d q hd
  unfold diceCoefficient nanToNum
  by_cases hden : ((vecSum vocab q : ℚ) + (vecSum vocab d : ℚ) = 0)
  · have hnat : vecSum vocab q + vecSum vocab d = 0 := by
      exact_mod_cast hden
    have hi0 : dotCount vocab d q = 0 := by omega
    rw [if_pos hden, if_pos (by rw [hi0]; norm_num)]
    norm_num
  · rw [if_neg hden]
    have hd0 : (0 : ℚ) ≤ (vecSum vocab q : ℚ) + (vecSum vocab d : ℚ) := by positivity
    have hdpos : (0 : ℚ) < (vecSum vocab q : ℚ) + (vecSum vocab d : ℚ) :=
      lt_of_le_of_ne hd0 (Ne.symm hden)
    have hnum : 2 * ((dotCount vocab d q : ℕ) : ℚ)
        ≤ (vecSum vocab q : ℚ) + (vecSum vocab d : ℚ) := by
      have h1 : ((dotCount vocab d q : ℕ) : ℚ) ≤ ((vecSum vocab d : ℕ) : ℚ) := by
        exact_mod_cast ha
      have h2 : ((dotCount vocab d q : ℕ) : ℚ) ≤ ((vecSum vocab q : ℕ) : ℚ) := by
        exact_mod_cast hb
      linarith
    refine ⟨div_nonneg (by positivity) (le_of_lt hdpos), (div_le_one hdpos).mpr hnum, ?_⟩
    · intro hsum
      exact absurd (by exact_mod_cast hsum) hden

/-- For duplicate-free bigram lists the n-gram overlap score is in [0, 1]
and a zero denominator yields 0. -/
theorem ngramSimilarity_bounds (vocab : List (List Char)) (d q : List Char)
    (hd : (charBigrams d).Nodup) (hq : (charBigrams q).Nodup) :
    0 ≤ ngramSimilarity vocab d q ∧ ngramSimilarity vocab d q ≤ 1 ∧
      ((vecSum vocab q : ℚ) + (vecSum vocab d : ℚ) - (dotCount vocab d q : ℚ) = 0 →
        ngramSimilarity vocab d q = 0) := by
  have ha := dotCount_le_left vocab d q hq
  have hb := dotCount_le_right vocab d q hd
  unfold ngramSimilarity nanToNum
  by_cases hden : ((vecSum vocab q : ℚ) + (vecSum vocab d : ℚ)
      - (dotCount vocab d q : ℚ) = 0)
  · have hnat : vecSum vocab q + vecSum vocab d = dotCount vocab d q := by
      exact_mod_cast (by linarith :
        ((vecSum vocab q : ℚ) + (vecSum vocab d : ℚ) = (dotCount vocab d q : ℚ)))
    have hi0 : dotCount vocab d q = 0 := by omega
    rw [if_pos hden, if_pos (by exact_mod_cast hi0)]
    norm_num
  · rw [if_neg hden]
    have hd0 : (0 : ℚ) ≤ (vecSum vocab q : ℚ) + (vecSum vocab d : ℚ)
        - (dotCount vocab d q : ℚ) := by
      have h2 : ((dotCount vocab d q : ℕ) : ℚ) ≤ ((vecSum vocab q : ℕ) : ℚ) := by
        exact_mod_cast hb
      have h3 : (0 : ℚ) ≤ (vecSum vocab d : ℚ) := by positivity
      linarith
    have hdpos : (0 : ℚ) < (vecSum vocab q : ℚ) + (vecSum vocab d : ℚ)
        - (dotCount vocab d q : ℚ) := lt_of_le_of_ne hd0 (Ne.symm hden)
    have hnum : ((dotCount vocab d q : ℕ) : ℚ)
        ≤ (vecSum vocab q : ℚ) + (vecSum vocab d : ℚ) - (dotCount vocab d q : ℚ) := by
      have h1 : ((dotCount vocab d q : ℕ) : ℚ) ≤ ((vecSum vocab d : ℕ) : ℚ) := by
        exact_mod_cast ha
      have h2 : ((dotCount vocab d q : ℕ) : ℚ) ≤ ((vecSum vocab q : ℕ) : ℚ) := by
        exact_mod_cast hb
      linarith
    exact ⟨div_nonneg (by positivity) (le_of_lt hdpos), (div_le_one hdpos).mpr hnum,
      fun hsum => absurd hsum hden⟩

/-! ## Weighted-term cosine algorithm

Modelled from the spec: the tfidf algorithm module
(`scripts/algorithms/tfidf.py`) is imported by `main.py` and
`tests/algotest.py` (`from scripts.algorithms import ... tfidf`) and has a
threshold entry in `config/config.py`, but its source file is missing.
Per the spec it represents each text as a TF-IDF weighted vector over a
token vocabulary built jointly from corpus and query set, and scores a
pair as the cosine similarity of the weighted vectors (standard sparse
dot-product over norm-product); its idf weighting is an abstract
parameter here since no formula for it survives in the sources. -/

/-- Term frequency of vocabulary token `v` in a document. -/
def tfCount (doc : List Char) (v : List Char) : ℕ := (tokenize doc).count v

/-- Modelled from the spec: a TF-IDF weighted vector over the vocabulary. -/
def tfidfVector (idf : List Char → ℚ) (vocab : List (List Char)) (doc : List Char) :
    List ℚ :=
  vocab.map (fun v => (tfCount doc v : ℚ) * idf v)

/-- Sparse dot product of two weight vectors. -/
def dotQ (u w : List ℚ) : ℚ := ((u.zip w).map (fun p => p.1 * p.2)).sum

/-- Modelled from the spec: cosine similarity, dot product over the
product of Euclidean norms (division by a zero norm is 0, matching the
required division-by-zero convention). -/
noncomputable def cosineSimilarity (u w : List ℚ) : ℝ :=
  (dotQ u w : ℝ) / (Real.sqrt (dotQ u u) * Real.sqrt (dotQ w w))

/-- Modelled from the spec: the tfidf pair score is the cosine similarity
of the two TF-IDF weighted vectors. -/
noncomputable def tfidfScore (idf : List Char → ℚ) (vocab : List (List Char))
    (q r : List Char) : ℝ :=
  cosineSimilarity (tfidfVector idf vocab q) (tfidfVector idf vocab r)

/-- What it means for a real number to be "the cosine similarity" of two
rational vectors: it solves `s · (‖u‖·‖w‖) = ⟪u, w⟫` and is 0 in the
degenerate zero-norm cases. -/
def IsCosineOf (u w : List ℚ) (s : ℝ) : Prop :=
  s * (Real.sqrt (dotQ u u) * Real.sqrt (dotQ w w)) = (dotQ u w : ℝ)
  ∧ ((dotQ u u = 0 ∨ dotQ w w = 0) → s = 0)

theorem dotQ_cons_cons (x y : ℚ) (u w : List ℚ) :
    dotQ (x :: u) (y :: w) = x * y + dotQ u w := by
  simp [dotQ]

theorem dotQ_self_nonneg (u : List ℚ) : 0 ≤ dotQ u u := by
  induction u with
  | nil => simp [dotQ]
  | cons x u ih =>
    rw [dotQ_cons_cons]
    have := mul_self_nonneg x
    linarith

theorem dotQ_comm (u : List ℚ) : ∀ w, dotQ u w = dotQ w u := by
  induction u with
  | nil =>
    intro w
    cases w <;> simp [dotQ]
  | cons x u ih =>
    intro w
    cases w with
    | nil => simp [dotQ]
    | cons y w =>
      rw [dotQ_cons_cons, dotQ_cons_cons, ih w, mul_comm]

theorem dotQ_eq_zero_left (u : List ℚ) (h : dotQ u u = 0) :
    ∀ w, dotQ u w = 0 := by
  induction u with
  | nil =>
    intro w
    cases w <;> simp [dotQ]
  | cons x u ih =>
    intro w
    have hx : x * x + dotQ u u = 0 := by
      rw [← dotQ_cons_cons]
      exact h
    have h1 := mul_self_nonneg x
    have h2 := dotQ_self_nonneg u
    have hxx : x = 0 := mul_self_eq_zero.mp (by linarith)
    have hu : dotQ u u = 0 := by linarith
    cases w with
    | nil => simp [dotQ]
    | cons y w =>
      rw [dotQ_cons_cons, hxx, ih hu w]
      ring

/-- The modelled tfidf score is the cosine similarity of the TF-IDF
vectors, in the characterizing sense. -/
theorem cosineSimilarity_isCosine (u w : List ℚ) :
    IsCosineOf u w (cosineSimilarity u w) := by
  unfold IsCosineOf cosineSimilarity
  by_cases hu : dotQ u u = 0
  · have hzero : dotQ u w = 0 := dotQ_eq_zero_left u hu w
    constructor
    · simp [hzero]
    · intro _
      simp [hzero]
  · by_cases hw : dotQ w w = 0
    · have hzero : dotQ u w = 0 := by
        rw [dotQ_comm]
        exact dotQ_eq_zero_left w hw u
      constructor
      · simp [hzero]
      · intro _
        simp [hzero]
    · have hu0 : (0 : ℝ) < ((dotQ u u : ℚ) : ℝ) := by
        have h0 : (0 : ℝ) ≤ ((dotQ u u : ℚ) : ℝ) := by
          exact_mod_cast dotQ_self_nonneg u
        have hne : ((dotQ u u : ℚ) : ℝ) ≠ 0 := by exact_mod_cast hu
        exact lt_of_le_of_ne h0 (Ne.symm hne)
      have hw0 : (0 : ℝ) < ((dotQ w w : ℚ) : ℝ) := by
        have h0 : (0 : ℝ) ≤ ((dotQ w w : ℚ) : ℝ) := by
          exact_mod_cast dotQ_self_nonneg w
        have hne : ((dotQ w w : ℚ) : ℝ) ≠ 0 := by exact_mod_cast hw
        exact lt_of_le_of_ne h0 (Ne.symm hne)
      have hsu : Real.sqrt ((dotQ u u : ℚ) : ℝ) ≠ 0 := ne_of_gt (Real.sqrt_pos.mpr hu0)
      have hsw : Real.sqrt ((dotQ w w : ℚ) : ℝ) ≠ 0 := ne_of_gt (Real.sqrt_pos.mpr hw0)
      constructor
      · exact div_mul_cancel₀ _ (mul_ne_zero hsu hsw)
      · intro habs
        rcases habs with h | h
        · exact absurd h hu
        · exact absurd h hw

/-- The characterization pins the score down uniquely. -/
theorem isCosine_unique (u w : List ℚ) (s : ℝ) (hs : IsCosineOf u w s) :
    s = cosineSimilarity u w := by
  obtain ⟨e1, z1⟩ := hs
  obtain ⟨e2, z2⟩ := cosineSimilarity_isCosine u w
  by_cases hN : Real.sqrt ((dotQ u u : ℚ) : ℝ) * Real.sqrt ((dotQ w w : ℚ) : ℝ) = 0
  · rcases mul_eq_zero.mp hN with h | h
    · have h0 : dotQ u u = 0 := by
        have hnn : (0 : ℝ) ≤ ((dotQ u u : ℚ) : ℝ) := by
          exact_mod_cast dotQ_self_nonneg u
        exact_mod_cast (Real.sqrt_eq_zero hnn).mp h
      rw [z1 (Or.inl h0), z2 (Or.inl h0)]
    · have h0 : dotQ w w = 0 := by
        have hnn : (0 : ℝ) ≤ ((dotQ w w : ℚ) : ℝ) := by
          exact_mod_cast dotQ_self_nonneg w
        exact_mod_cast (Real.sqrt_eq_zero hnn).mp h
      rw [z1 (Or.inr h0), z2 (Or.inr h0)]
  · exact mul_right_cancel₀ hN (e1.trans e2.symm)

/-! ## The uniform three-phase algorithm contract

Each algorithm module in `scripts/algorithms/` exposes the same names:
`prep_(data, match)`, a per-query `__calculate_best_match` driven by
`perform_matching`, and `export_results` (thresholding into
`BEST_MATCH_BINARY`).  `main.py` dispatches over the modules through this
shared shape. -/

structure AlgoModule (State Score : Type) where
  NAME : String
  prep : List (List Char) → List (List Char) → Except String State
  calculateBestMatch : State → List (List Char) → List String → String → List Char →
    Except String (MatchResult Score)
  classify : Option Score → Bool

def levenshteinModule : AlgoModule Unit ℚ :=
  { NAME := "levenshtein",
    prep := fun _ _ => Except.ok (),
    calculateBestMatch := fun _ dataNorm dataOrig qOrig qNorm =>
      Except.ok (levenshteinBestMatch dataNorm dataOrig qOrig qNorm),
    classify := fun s => classifyScoreQ s THRESHOLDS.levenshtein }

def jaccardModule : AlgoModule (List (List Char)) ℚ :=
  { NAME := "jaccard",
    prep := fun dataNorm _ => jaccardPrep dataNorm,
    calculateBestMatch := jaccardBestMatch,
    classify := fun s => classifyScoreQ s THRESHOLDS.jaccard }

def diceModule : AlgoModule (List (List Char)) ℚ :=
  { NAME := "dice",
    prep := fun dataNorm matchNorm => fitCharVocabulary (dataNorm ++ matchNorm),
    calculateBestMatch := diceBestMatch,
    classify := fun s => classifyScoreQ s THRESHOLDS.dice }

def ngramModule : AlgoModule (List (List Char)) ℚ :=
  { NAME := "ngram",
    prep := fun dataNorm matchNorm => fitCharVocabulary (dataNorm ++ matchNorm),
    calculateBestMatch := ngramBestMatch,
    classify := fun s => classifyScoreQ s THRESHOLDS.ngram }

def regexModule : AlgoModule Unit Bool :=
  { NAME := "regex",
    prep := fun _ _ => Except.ok (),
    calculateBestMatch := fun _ dataNorm dataOrig qOrig qNorm =>
      Except.ok (regexBestMatch dataNorm dataOrig qOrig qNorm),
    classify := fun s => classifyScoreB s THRESHOLDS.regex }

/-- First-occurrence arg-max over real scores (spec model only). -/
noncomputable def argmaxFirstAuxR : List ℝ → ℕ → Option (ℝ × ℕ) → Option (ℝ × ℕ)
  | [], _, best => best
  | s :: rest, i, best =>
    match best with
    | none => argmaxFirstAuxR rest (i + 1) (some (s, i))
    | some (bs, bi) =>
      argmaxFirstAuxR rest (i + 1) (if s > bs then some (s, i) else some (bs, bi))

noncomputable def argmaxFirstR (l : List ℝ) : Option (ℝ × ℕ) := argmaxFirstAuxR l 0 none

/-- Modelled from the spec: tfidf per-query best match — empty normalized
queries yield a no-match row, otherwise the arg-max of the cosine scores
(ties to the first reference). -/
noncomputable def tfidfBestMatch (idf : List Char → ℚ) (vocab : List (List Char))
    (dataNorm : List (List Char)) (dataOrig : List String)
    (qOrig : String) (qNorm : List Char) : Except String (MatchResult ℝ) :=
  if (stripList qNorm).isEmpty then
    Except.ok { MATCH := qOrig, BEST_FOUND_MATCH := none, TRUE_MATCH := none, BEST_MATCH := none }
  else
    match argmaxFirstR (dataNorm.map fun d => tfidfScore idf vocab qNorm d) with
    | some (ms, mi) =>
      Except.ok { MATCH := qOrig, BEST_FOUND_MATCH := some (dataOrig.getD mi ""),
                  TRUE_MATCH := none, BEST_MATCH := some ms }
    | none => Except.error "empty reference corpus"

/-- Classification over real scores (spec model only). -/
noncomputable def classifyScoreR (s : Option ℝ) (t : ℚ) : Bool :=
  match s with
  | none => false
  | some x => if (t : ℝ) ≤ x then true else false

noncomputable def tfidfModule (idf : List Char → ℚ) : AlgoModule (List (List Char)) ℝ :=
  { NAME := "tfidf",
    prep := fun dataNorm matchNorm => fitVocabulary (dataNorm ++ matchNorm),
    calculateBestMatch := tfidfBestMatch idf,
    classify := fun s => classifyScoreR s THRESHOLDS.tfidf }

/-- The six interchangeable algorithm implementations, as the
(state-type, score-type, module) table that `main.py` dispatches over. -/
noncomputable def algorithmModules (idf : List Char → ℚ) :
    List (Σ State : Type, Σ Score : Type, AlgoModule State Score) :=
  [⟨Unit, ℚ, levenshteinModule⟩, ⟨List (List Char), ℚ, jaccardModule⟩,
   ⟨List (List Char), ℚ, diceModule⟩, ⟨List (List Char), ℚ, ngramModule⟩,
   ⟨Unit, Bool, regexModule⟩, ⟨List (List Char), ℝ, tfidfModule idf⟩]

/-! ## Claim theorems -/

/-- C1, counterexample: on corpus `["aaa"]` and query `"aaa"` the Dice
pipeline emits score 2 (outside [0, 1]), and the n-gram pipeline has a
zero denominator (`match_size + data_size - intersection = 0`) with a
nonzero numerator, emitting `FLOAT_MAX` (the `nan_to_num` image of `inf`),
not 0 — both because the count-vector "intersection" is a dot product
that can exceed the vector sums when a bigram repeats. -/
theorem ngram_dice_scores_escape_unit_interval :
    diceRunOne ["aaa"] "aaa" =
      Except.ok { MATCH := "aaa", BEST_FOUND_MATCH := some "aaa",
                  TRUE_MATCH := none, BEST_MATCH := some 2 } ∧
    ¬ ((2 : ℚ) ≤ 1) ∧
    ngramRunOne ["aaa"] "aaa" =
      Except.ok { MATCH := "aaa", BEST_FOUND_MATCH := some "aaa",
                  TRUE_MATCH := none, BEST_MATCH := some FLOAT_MAX } ∧
    (vecSum ["aa".data] "aaa".data : ℚ) + (vecSum ["aa".data] "aaa".data : ℚ)
      - (dotCount ["aa".data] "aaa".data "aaa".data : ℚ) = 0 ∧
    FLOAT_MAX ≠ 0 ∧ 1 < FLOAT_MAX := by
  refine ⟨diceRunOne_aaa, by norm_num, ngramRunOne_aaa, ?_, ?_, ?_⟩
  · have h1 : dotCount ["aa".data] "aaa".data "aaa".data = 4 := by decide
    have h2 : vecSum ["aa".data] "aaa".data = 2 := by decide
    rw [h1, h2]
    norm_num
  · unfold FLOAT_MAX
    norm_num
  · unfold FLOAT_MAX
    norm_num

/-- C1, amended: the Levenshtein similarity is always in [0, 1]; the
Jaccard score is always in [0, 1] with an empty union resolving to 0; the
n-gram and Dice scores lie in [0, 1] with zero denominators resolving to
0 provided neither string repeats a bigram (the regex score is boolean by
type).  Without that proviso the n-gram and Dice scores can leave [0, 1],
as the counterexample shows. -/
theorem score_bounds_amended :
    (∀ xs ys : List Char, 0 ≤ levNormSim xs ys ∧ levNormSim xs ys ≤ 1) ∧
    (∀ (vocab : List (List Char)) (d q : List Char),
      0 ≤ jaccardSimilarity vocab d q ∧ jaccardSimilarity vocab d q ≤ 1 ∧
        (presenceCount vocab d + presenceCount vocab q = 0 →
          jaccardSimilarity vocab d q = 0)) ∧
    (∀ (vocab : List (List Char)) (d q : List Char),
      (charBigrams d).Nodup → (charBigrams q).Nodup →
      0 ≤ ngramSimilarity vocab d q ∧ ngramSimilarity vocab d q ≤ 1 ∧
        ((vecSum vocab q : ℚ) + (vecSum vocab d : ℚ) - (dotCount vocab d q : ℚ) = 0 →
          ngramSimilarity vocab d q = 0)) ∧
    (∀ (vocab : List (List Char)) (d q : List Char),
      (charBigrams d).Nodup → (charBigrams q).Nodup →
      0 ≤ diceCoefficient vocab d q ∧ diceCoefficient vocab d q ≤ 1 ∧
        (vecSum vocab q + vecSum vocab d = 0 → diceCoefficient vocab d q = 0)) :=
  ⟨levNormSim_bounds, jaccardSimilarity_bounds, ngramSimilarity_bounds,
   diceCoefficient_bounds⟩

/-- Witness for C1 amended, at concrete inputs. -/
theorem score_bounds_amended_witness :
    (0 ≤ levNormSim "ab".data "cd".data ∧ levNormSim "ab".data "cd".data ≤ 1) ∧
    (0 ≤ ngramSimilarity ["ab".data] "ab".data "ab".data ∧
      ngramSimilarity ["ab".data] "ab".data "ab".data ≤ 1 ∧
      ((vecSum ["ab".data] "ab".data : ℚ) + (vecSum ["ab".data] "ab".data : ℚ)
          - (dotCount ["ab".data] "ab".data "ab".data : ℚ) = 0 →
        ngramSimilarity ["ab".data] "ab".data "ab".data = 0)) ∧
    (0 ≤ diceCoefficient ["ab".data] "ab".data "ab".data ∧
      diceCoefficient ["ab".data] "ab".data "ab".data ≤ 1 ∧
      (vecSum ["ab".data] "ab".data + vecSum ["ab".data] "ab".data = 0 →
        diceCoefficient ["ab".data] "ab".data "ab".data = 0)) :=
  ⟨score_bounds_amended.1 "ab".data "cd".data,
   score_bounds_amended.2.2.1 ["ab".data] "ab".data "ab".data (by decide) (by decide),
   score_bounds_amended.2.2.2 ["ab".data] "ab".data "ab".data (by decide) (by decide)⟩

/-- C2, counterexample: the containment (regex) algorithm has no
empty-query guard; on corpus `["Müllerweg"]` and query `""` the empty
escaped pattern matches every reference, so the first reference is
returned as best match with score `True` and the thresholded decision is
accepted — not the required absent/absent/false row. -/
theorem regex_empty_query_vacuous_match :
    regexRunOne ["Müllerweg"] "" =
      { MATCH := "", BEST_FOUND_MATCH := some "Müllerweg",
        TRUE_MATCH := none, BEST_MATCH := some true } ∧
    classifyScoreB (some true) THRESHOLDS.regex = true := by
  constructor
  · decide
  · simp [classifyScoreB, THRESHOLDS]
    norm_num

/-- C2, amended: for the edit-distance, Jaccard, n-gram and Dice
algorithms an empty normalized query produces a MatchResult with no best
match and no score, and a missing score classifies as not accepted; the
containment (regex) algorithm instead vacuously matches the first
reference record. -/
theorem empty_query_no_match (vocab dataNorm : List (List Char))
    (dataOrig : List String) (qOrig : String) (qNorm : List Char) (t : ℚ)
    (h : qNorm = []) :
    levenshteinBestMatch dataNorm dataOrig qOrig qNorm =
      { MATCH := qOrig, BEST_FOUND_MATCH := none, TRUE_MATCH := none, BEST_MATCH := none } ∧
    jaccardBestMatch vocab dataNorm dataOrig qOrig qNorm =
      Except.ok { MATCH := qOrig, BEST_FOUND_MATCH := none,
                  TRUE_MATCH := none, BEST_MATCH := none } ∧
    ngramBestMatch vocab dataNorm dataOrig qOrig qNorm =
      Except.ok { MATCH := qOrig, BEST_FOUND_MATCH := none,
                  TRUE_MATCH := none, BEST_MATCH := none } ∧
    diceBestMatch vocab dataNorm dataOrig qOrig qNorm =
      Except.ok { MATCH := qOrig, BEST_FOUND_MATCH := none,
                  TRUE_MATCH := none, BEST_MATCH := none } ∧
    classifyScoreQ none t = false := by
  subst h
  have hall : vocab.all (fun v => ngramCount [] v == 0) = true := by
    rw [List.all_eq_true]
    intro v _
    rfl
  refine ⟨?_, ?_, ?_, ?_, rfl⟩
  · unfold levenshteinBestMatch
    rw [if_pos (show (stripList ([] : List Char)).isEmpty = true from rfl)]
  · unfold jaccardBestMatch
    rw [if_pos (show (stripList ([] : List Char)).isEmpty = true from rfl)]
  · unfold ngramBestMatch
    rw [if_pos hall]
  · unfold diceBestMatch
    rw [if_pos hall]

/-- Witness for C2 amended, at the spec's scenario inputs. -/
theorem empty_query_no_match_witness :
    levenshteinBestMatch [normalizeList "Müllerweg".data] ["Müllerweg"] "" [] =
      { MATCH := "", BEST_FOUND_MATCH := none, TRUE_MATCH := none, BEST_MATCH := none } ∧
    jaccardBestMatch [] [normalizeList "Müllerweg".data] ["Müllerweg"] "" [] =
      Except.ok { MATCH := "", BEST_FOUND_MATCH := none,
                  TRUE_MATCH := none, BEST_MATCH := none } ∧
    ngramBestMatch [] [normalizeList "Müllerweg".data] ["Müllerweg"] "" [] =
      Except.ok { MATCH := "", BEST_FOUND_MATCH := none,
                  TRUE_MATCH := none, BEST_MATCH := none } ∧
    diceBestMatch [] [normalizeList "Müllerweg".data] ["Müllerweg"] "" [] =
      Except.ok { MATCH := "", BEST_FOUND_MATCH := none,
                  TRUE_MATCH := none, BEST_MATCH := none } ∧
    classifyScoreQ none THRESHOLDS.levenshtein = false :=
  empty_query_no_match [] [normalizeList "Müllerweg".data] ["Müllerweg"] "" []
    THRESHOLDS.levenshtein rfl

/-- C3, counterexample: with queries `[0, 1]` and the thread-pool
completion order `[1, 0]` (a legal completion order — it is a permutation
of the indices), the collected results are `[1, 0]`, i.e. completion
order, not query input order: nothing reassembles them by index. -/
theorem completion_order_not_reassembled :
    performMatching (fun i => Except.ok i) [1, 0] = [1, 0] ∧
    performMatching (fun i => Except.ok i) [1, 0] ≠ [0, 1] ∧
    ([1, 0] : List ℕ).Perm [0, 1] := by
  refine ⟨by decide, by decide, by decide⟩

/-- C3, amended: the result collection handed downstream is the list of
successful per-query results in task completion order; no reassembly by
original query index happens, so input order is obtained only when tasks
happen to complete in submission order. -/
theorem results_in_completion_order {R : Type} (task : ℕ → Except String R)
    (order : List ℕ) :
    performMatching task order = order.filterMap (fun i => (task i).toOption) :=
  performMatching_eq_filterMap task order

/-- C4, counterexample: `jaccard.prep_` fits the vectorizer on the
reference corpus, and `CountVectorizer.fit` on an empty corpus raises the
empty-vocabulary `ValueError` — prepare does raise. -/
theorem jaccard_prepare_empty_corpus_raises :
    jaccardPrep [] =
      Except.error "empty vocabulary; perhaps the documents only contain stop words" :=
  rfl

/-- C4, amended: with an empty reference corpus the edit-distance search
degrades to a no-match row for every query, and an empty query set
produces an empty result list without error; but the vectorizer-backed
Jaccard algorithm raises an empty-vocabulary error already at prepare
time on an empty corpus. -/
theorem prepare_empty_input_behavior :
    (∀ (dataOrig : List String) (qOrig : String) (qNorm : List Char),
      levenshteinBestMatch [] dataOrig qOrig qNorm =
        { MATCH := qOrig, BEST_FOUND_MATCH := none,
          TRUE_MATCH := none, BEST_MATCH := none }) ∧
    (∀ (R : Type) (task : ℕ → Except String R), performMatching task [] = []) ∧
    (∃ e, jaccardPrep [] = Except.error e) := by
  refine ⟨?_, fun R task => rfl, ⟨_, rfl⟩⟩
  intro dataOrig qOrig qNorm
  unfold levenshteinBestMatch
  by_cases h : (stripList qNorm).isEmpty = true
  · rw [if_pos h]
  · rw [if_neg h]
    rfl

/-- C5, counterexample: normalization is not idempotent — stripping
happens before punctuation removal, so `"a ."` normalizes to `"a "`
(trailing space kept), which normalizes again to `"a"`. -/
theorem normalize_not_idempotent :
    normalizeText "a ." = "a " ∧
    normalizeText (normalizeText "a .") ≠ normalizeText "a ." :=
  ⟨by decide, by decide⟩

/-- C5, amended: normalization is idempotent on every string whose
normalized form has no leading/trailing whitespace and contains none of
ä ö ü ß (the counterexample shows the whitespace proviso is necessary;
an uppercase umlaut input, e.g. `"Ä"` ↦ `"ä"` ↦ `"ae"`, shows the
character proviso is necessary). -/
theorem normalize_idempotent_cond (x : String)
    (h1 : stripList (normalizeList x.data) = normalizeList x.data)
    (h2 : 'ä' ∉ normalizeList x.data) (h3 : 'ö' ∉ normalizeList x.data)
    (h4 : 'ü' ∉ normalizeList x.data) (h5 : 'ß' ∉ normalizeList x.data) :
    normalizeText (normalizeText x) = normalizeText x := by
  have h := normalizeList_idem_cond x.data h1 h2 h3 h4 h5
  unfold normalizeText
  congr 1

/-- Witness for C5 amended, at a concrete input. -/
theorem normalize_idempotent_cond_witness :
    normalizeText (normalizeText "Dr. Müller") = normalizeText "Dr. Müller" :=
  normalize_idempotent_cond "Dr. Müller" (by decide) (by decide) (by decide)
    (by decide) (by decide)

/-- C6: evaluating the code at the spec's scenario.  Because the
translation table maps `"straße" ↦ "str."` (the module's own docstring
documents the opposite direction, `'Dr. Müller-Straße 123' ↦
'dr muellerstrasse 123'`, while the code produces `'dr muellerstr 123'`),
the query normalizes to `"schlossstr"`, the best match is still
`"Schlossstrasse"` but with score 5/7 < 0.8, and the decision is not
accepted — contradicting the claimed score ≥ 0.8 / accepted. -/
theorem schlossstr_scenario_eval :
    levenshteinRunOne ["Schlossstrasse", "Goethestrasse"] "Schlossstr." =
      { MATCH := "Schlossstr.", BEST_FOUND_MATCH := some "Schlossstrasse",
        TRUE_MATCH := none, BEST_MATCH := some (5/7) } ∧
    classifyScoreQ (some (5/7)) THRESHOLDS.levenshtein = false ∧
    ¬ ((4 : ℚ)/5 ≤ 5/7) ∧
    normalizeText "Schlossstr." = "schlossstr" ∧
    normalizeText "Dr. Müller-Straße 123" = "dr muellerstr 123" := by
  refine ⟨levenshteinRunOne_schloss, ?_, by norm_num, by decide, by decide⟩
  simp [classifyScoreQ, THRESHOLDS]
  norm_num

/-- C7, counterexample: the Jaccard pipeline on corpus `["Hauptstraße 1"]`
and query `["Hauptstrasse Eins"]` does not return score 1/3, and the
corpus record does not normalize to `"hauptstrasse 1"`. -/
theorem jaccard_haupt_not_one_third :
    jaccardRunOne ["Hauptstraße 1"] "Hauptstrasse Eins" ≠
      Except.ok { MATCH := "Hauptstrasse Eins", BEST_FOUND_MATCH := some "Hauptstraße 1",
                  TRUE_MATCH := none, BEST_MATCH := some (1/3) } ∧
    normalizeText "Hauptstraße 1" ≠ "hauptstrasse 1" := by
  constructor
  · rw [jaccardRunOne_haupt]
    simp only [ne_eq, Except.ok.injEq, MatchResult.mk.injEq, Option.some.injEq]
    intro hc
    have := hc.2.2.2
    norm_num at this
  · decide

/-- C7, amended: the corpus record normalizes to `"hauptstr 1"` (the
translation table abbreviates `straße`), the query to
`"hauptstrasse eins"`; the vocabulary is fitted on the corpus only and
keeps only tokens of ≥ 2 word characters, so it is `{"hauptstr"}`, the
query shares no vocabulary token, and the pipeline returns Jaccard score
0 with the first reference still reported as best match. -/
theorem jaccard_haupt_eval :
    normalizeText "Hauptstraße 1" = "hauptstr 1" ∧
    normalizeText "Hauptstrasse Eins" = "hauptstrasse eins" ∧
    tokenize (normalizeList "Hauptstraße 1".data) = ["hauptstr".data] ∧
    (jaccardPrep [normalizeList "Hauptstraße 1".data]).toOption = some ["hauptstr".data] ∧
    jaccardRunOne ["Hauptstraße 1"] "Hauptstrasse Eins" =
      Except.ok { MATCH := "Hauptstrasse Eins", BEST_FOUND_MATCH := some "Hauptstraße 1",
                  TRUE_MATCH := none, BEST_MATCH := some 0 } :=
  ⟨by decide, by decide, by decide, by decide, jaccardRunOne_haupt⟩

/-- C8: for every completion order that is a permutation of the submitted
query indices, the collected results are exactly the successful tasks
(each appearing once, failures omitted, batch never aborted), so the
result row count equals the query count minus the failure count. -/
theorem perform_matching_isolation {R : Type} (task : ℕ → Except String R)
    (indices order : List ℕ) (hperm : order.Perm indices) :
    (performMatching task order).length
      = indices.length - (indices.filter (fun i => !(exceptOk (task i)))).length ∧
    performMatching task order = order.filterMap (fun i => (task i).toOption) ∧
    (order.filter (fun i => exceptOk (task i))).Perm
      (indices.filter (fun i => exceptOk (task i))) := by
  refine ⟨?_, performMatching_eq_filterMap task order, hperm.filter _⟩
  rw [performMatching_eq_filterMap, length_filterMap_toOption]
  have h1 : (order.filter (fun i => exceptOk (task i))).length
      = (indices.filter (fun i => exceptOk (task i))).length :=
    (hperm.filter _).length_eq
  have h2 := length_filter_partition (fun i => exceptOk (task i)) indices
  omega

/-- Witness for C8, at a concrete batch with one failing query. -/
theorem perform_matching_isolation_witness :
    (performMatching (fun i => if i = 1 then Except.error "boom" else Except.ok i)
        [2, 0, 1]).length
      = ([0, 1, 2] : List ℕ).length
        - (([0, 1, 2] : List ℕ).filter
            (fun i => !(exceptOk (if i = 1 then Except.error "boom" else Except.ok i)))).length ∧
    performMatching (fun i => if i = 1 then Except.error "boom" else Except.ok i) [2, 0, 1]
      = ([2, 0, 1] : List ℕ).filterMap
          (fun i => (if i = 1 then Except.error "boom" else Except.ok i).toOption) ∧
    (([2, 0, 1] : List ℕ).filter
        (fun i => exceptOk (if i = 1 then Except.error "boom" else Except.ok i))).Perm
      (([0, 1, 2] : List ℕ).filter
        (fun i => exceptOk (if i = 1 then Except.error "boom" else Except.ok i))) :=
  perform_matching_isolation (fun i => if i = 1 then Except.error "boom" else Except.ok i)
    [0, 1, 2] [2, 0, 1] (by decide)

/-- C9: the engine's dispatch table has six interchangeable algorithm
modules — levenshtein, jaccard, dice, ngram, regex and tfidf — each
exposing the same three-phase contract (prepare, per-query best-match
search, threshold classification), and the tfidf variant scores a pair as
exactly the cosine similarity (dot product over norm product, 0 on zero
norms) of the two TF-IDF weighted vectors, which that property uniquely
determines. -/
theorem six_algorithms_contract :
    (∀ idf, ((algorithmModules idf).map fun m => m.2.2.NAME)
      = ["levenshtein", "jaccard", "dice", "ngram", "regex", "tfidf"]) ∧
    (∀ idf, (algorithmModules idf).length = 6) ∧
    (∀ (idf : List Char → ℚ) (vocab : List (List Char)) (q r : List Char),
      IsCosineOf (tfidfVector idf vocab q) (tfidfVector idf vocab r)
        (tfidfScore idf vocab q r)) ∧
    (∀ (idf : List Char → ℚ) (vocab : List (List Char)) (q r : List Char) (s : ℝ),
      IsCosineOf (tfidfVector idf vocab q) (tfidfVector idf vocab r) s →
        s = tfidfScore idf vocab q r) :=
  ⟨fun _ => rfl, fun _ => rfl,
   fun _ _ _ _ => cosineSimilarity_isCosine _ _,
   fun _ _ _ _ s hs => isCosine_unique _ _ s hs⟩

/-- Witness for C9, at concrete degenerate vectors: the unique cosine of
two empty TF-IDF vectors is 0, so the modelled score evaluates to 0. -/
theorem six_algorithms_contract_witness :
    tfidfScore (fun _ => 1) [] [] [] = 0 :=
  (six_algorithms_contract.2.2.2 (fun _ => 1) [] [] [] 0
    ⟨by simp [dotQ, tfidfVector], fun _ => rfl⟩).symm

/-- C10: `re.escape` turns the query into an all-literal pattern that
always compiles, and matching it case-insensitively against a reference
is exactly the literal case-insensitive substring test. -/
theorem regex_escape_literal_search (q r : List Char) :
    parsePattern (reEscape q) = some (q.map RTok.lit) ∧
    (regexMatching q r = true ↔ (q.map lowerChar) <:+: (r.map lowerChar)) := by
  refine ⟨parse_reEscape q, ?_⟩
  unfold regexMatching
  rw [parse_reEscape q]
  exact patSearch_lit q r

end StringSim
